import Mathlib

/-!
Verification development for the article-registry catalog & pricing engine.

The definitions below are a shallow embedding of the TypeScript source:
  * CSV ingestion (`parseCSV`, `splitCSVLine`, `convertHeaderToKey`)
  * filtering/sorting (`filterAndSortArticles`)
  * variant grouping (`groupArticles`)
  * the sales ledger (`saveSale` / `deleteSale` via `applyOp`, `loadSalesHistory`)
  * the pricing calculator (`calculatePrice`, `savePricingCalculation`)

Modelling conventions:
  * JS strings are Lean `String`s; character-level work uses `List Char`.
  * JS numbers are exact rationals (`ℚ`); NaN is represented by `Option ℚ`
    being `none`.  The `parseFloat` model recognises the finite-numeral
    grammar of JS `parseFloat` (optional sign, digits, fraction, exponent,
    longest valid prefix); the JS literal `Infinity` is outside the model's
    number domain and is treated as unparseable.
  * JS truthiness of a string is "non-empty"; `x || d` on strings/numbers is
    modelled explicitly at each use site.
  * `Array.prototype.sort` (stable since ES2019) is modelled by the stable
    insertion sort `jsSort`, parameterised by "comparator is negative".
  * JS objects used as string-keyed maps are association lists with
    last-write-wins assignment (`alSet`) preserving first-insertion order,
    matching JS property-order semantics.
-/

/-- Whitespace as trimmed/skipped by JS `trim` and `parseFloat`. -/
def jsWhitespace (c : Char) : Bool :=
  c = ' ' || c = '\t' || c = '\n' || c = '\r' || c = '\x0b' || c = '\x0c'

/-- Model of `String.prototype.trim` on character lists. -/
def trimChars (s : List Char) : List Char :=
  ((s.dropWhile jsWhitespace).reverse.dropWhile jsWhitespace).reverse

/-- Model of `s.trim()` on `String`. -/
def jsTrim (s : String) : String :=
  String.mk (trimChars s.data)

/-- Model of `s.toLowerCase()` (ASCII range, which is all the app compares). -/
def jsLower (s : String) : String :=
  String.mk (s.data.map Char.toLower)

/-- Occurrence of `q` as a contiguous run inside `s`. -/
def containsRun : List Char → List Char → Bool
  | [], q => q.isEmpty
  | c :: r, q => q.isPrefixOf (c :: r) || containsRun r q

/-- Model of `s.includes(q)`: `q` occurs as a contiguous substring of `s`. -/
def jsIncludes (s q : String) : Bool :=
  containsRun s.data q.data

/-- Truthiness of an optional string field: present and non-empty. -/
def truthyOpt (o : Option String) : Bool :=
  match o with
  | none => false
  | some s => s ≠ ""

/-- Model of the JS idiom `s || d` on strings (empty string is falsy). -/
def jsOrD (s d : String) : String :=
  if s = "" then d else s

/-- Digit run to a natural number. -/
def digitsToNat (ds : List Char) : Nat :=
  ds.foldl (fun n c => 10 * n + (c.toNat - '0'.toNat)) 0

/-- Exponent part of a JS float literal: optional sign then digits; an `e`
with no digits after it contributes exponent 0 (it is not consumed). -/
def parseExponent (s : List Char) : Int :=
  let (sgn, s') : Int × List Char :=
    match s with
    | '-' :: r => (-1, r)
    | '+' :: r => (1, r)
    | _ => (1, s)
  let ds := s'.takeWhile Char.isDigit
  if ds = [] then 0 else sgn * (digitsToNat ds : Int)

/-- Decimal components of a parsed JS float literal:
`(-1)^neg * (intVal + fracVal / 10^fracLen) * 10^exp`. -/
structure FloatRep where
  neg : Bool
  intVal : Nat
  fracVal : Nat
  fracLen : Nat
  exp : Int
deriving DecidableEq

/-- Scanner of JS `parseFloat`: skip leading whitespace, optional sign, then
the longest prefix matching `digits [. digits] [e[sign]digits]`, requiring at
least one digit in the mantissa; `none` models NaN (no parse). -/
def parseFloatRep (s : List Char) : Option FloatRep :=
  let s1 := s.dropWhile jsWhitespace
  let (neg, s2) : Bool × List Char :=
    match s1 with
    | '-' :: r => (true, r)
    | '+' :: r => (false, r)
    | _ => (false, s1)
  let intPart := s2.takeWhile Char.isDigit
  let s3 := s2.dropWhile Char.isDigit
  let (fracPart, s4) : List Char × List Char :=
    match s3 with
    | '.' :: r => (r.takeWhile Char.isDigit, r.dropWhile Char.isDigit)
    | _ => ([], s3)
  if intPart = [] ∧ fracPart = [] then none
  else
    let e : Int :=
      match s4 with
      | 'e' :: r => parseExponent r
      | 'E' :: r => parseExponent r
      | _ => 0
    some ⟨neg, digitsToNat intPart, digitsToNat fracPart, fracPart.length, e⟩

/-- Rational value of the scanned components. -/
def repToRat (r : FloatRep) : ℚ :=
  (if r.neg then -1 else 1) *
    ((r.intVal : ℚ) + (r.fracVal : ℚ) / ((10 : ℚ) ^ r.fracLen)) *
    (10 : ℚ) ^ r.exp

/-- Model of JS `parseFloat` as an exact rational; `none` models NaN. -/
def parseFloat (s : List Char) : Option ℚ :=
  (parseFloatRep s).map repToRat

/-- Parse of an optional string field. -/
def parseFloatOpt (o : Option String) : Option ℚ :=
  match o with
  | none => none
  | some s => parseFloat s.data

/-- Model of `parseFloat(x) || 0`: NaN (and 0 itself) becomes 0. -/
def qOrZero (o : Option ℚ) : ℚ :=
  o.getD 0

/-- Model of `parseFloat(x) || 1`: NaN becomes 1, and so does a parsed 0,
because the number 0 is falsy in JS. -/
def qOrOne (o : Option ℚ) : ℚ :=
  match o with
  | none => 1
  | some q => if q = 0 then 1 else q

/-- Lexicographic comparison of character lists by code point; a
deterministic stand-in for `localeCompare` (no claim depends on the
locale-specific order, only on the sort being a deterministic permutation). -/
def compareChars : List Char → List Char → Int
  | [], [] => 0
  | [], _ :: _ => -1
  | _ :: _, [] => 1
  | a :: as, b :: bs =>
    if a.toNat < b.toNat then -1
    else if b.toNat < a.toNat then 1
    else compareChars as bs

/-- Insert `x` into `l` before the first element `y` with `lt x y`; with
`lt x y` meaning "comparator x y < 0" this realises a stable sort step. -/
def jsInsert (lt : α → α → Bool) (x : α) : List α → List α
  | [] => [x]
  | y :: ys => if lt x y then x :: y :: ys else y :: jsInsert lt x ys

/-- Stable sort modelling `Array.prototype.sort(comparator)`:
`lt a b` holds when the comparator returns a negative number on `(a, b)`. -/
def jsSort (lt : α → α → Bool) (l : List α) : List α :=
  l.foldl (fun acc x => jsInsert lt x acc) []

/-- Assignment `obj[k] = v` on a string-keyed JS object: overwrite in place
if the key exists (keeping its position), else append. -/
def alSet : List (String × β) → String → β → List (String × β)
  | [], k, v => [(k, v)]
  | (k', v') :: r, k, v =>
    if k' = k then (k, v) :: r else (k', v') :: alSet r k v

/-- Lookup `obj[k]` on a string-keyed JS object. -/
def alGet (l : List (String × β)) (k : String) : Option β :=
  (l.find? (fun p => p.1 = k)).map (·.2)

/-- Lookup with a default, modelling `obj[k] || d`. -/
def alGetD (l : List (String × β)) (k : String) (d : β) : β :=
  (alGet l k).getD d

/-! ## Tabular ingestion parser (src/unnamed/part_006, `parseCSV`) -/

/-- Accumulating scan behind `splitLines`. -/
def splitLinesGo : List Char → List Char → List (List Char)
  | [], cur => [cur]
  | '\r' :: '\n' :: r, cur => cur :: splitLinesGo r []
  | '\n' :: r, cur => cur :: splitLinesGo r []
  | c :: r, cur => splitLinesGo r (cur ++ [c])

/-- Split on the separator `\r?\n`, as in `text.split(/\r?\n/)`; a lone
carriage return is not a separator. -/
def splitLines (s : List Char) : List (List Char) :=
  splitLinesGo s []

/-- Removal of a leading UTF-8 byte-order mark, `text.replace(/^﻿/, '')`. -/
def stripBOM (s : List Char) : List Char :=
  match s with
  | c :: r => if c = Char.ofNat 0xFEFF then r else s
  | [] => s

/-- Plain split on commas (used for the header line only). -/
def splitCommas : List Char → List Char → List (List Char)
  | [], cur => [cur]
  | c :: r, cur =>
    if c = ',' then cur :: splitCommas r []
    else splitCommas r (cur ++ [c])

/-- Model of `h.replace(/^"|"$/g, '')`: drop one leading and one trailing
double quote if present. -/
def stripEdgeQuotes (s : List Char) : List Char :=
  let s1 := match s with
    | '"' :: r => r
    | _ => s
  match s1.reverse with
  | '"' :: r => r.reverse
  | _ => s1

/-- Character-by-character scan of one data line: toggle `insideQuotes` on
each `"`, treat `,` as a field separator only when not inside quotes, trim
each flushed value (part_006 lines 1589-1605). -/
def splitCSVLine : List Char → Bool → List Char → List (List Char)
  | [], _, cur => [trimChars cur]
  | c :: rest, insideQuotes, cur =>
    if c = '"' then splitCSVLine rest (!insideQuotes) cur
    else if c = ',' ∧ insideQuotes = false then
      trimChars cur :: splitCSVLine rest false []
    else splitCSVLine rest insideQuotes (cur ++ [c])

/-- Fixed header-name translation table of `convertHeaderToKey`. -/
def headerMapping : List (String × String) :=
  [("Article Code", "articleCode"),
   ("Article Name", "articleName"),
   ("Color Code", "colorCode"),
   ("Color Name", "colorName"),
   ("Color Hex", "colorHex"),
   ("Treatment Name", "treatmentName"),
   ("Treatment Code", "treatmentCode"),
   ("Supplier", "supplier"),
   ("Supplier Code", "supplierCode"),
   ("Section", "section"),
   ("Season", "season"),
   ("Supp.Art.Code", "suppArtCode"),
   ("Composition", "composition"),
   ("Weave", "weave"),
   ("Stretch", "stretch"),
   ("Construction", "construction"),
   ("Weight GSM", "weightGSM"),
   ("Width CM", "widthCM"),
   ("Dye Type", "dyeType"),
   ("Care Label", "careLabel"),
   ("Barcode/QR", "barcodeQR"),
   ("Base Price EUR", "basePriceEUR")]

/-- Translation of a header to an internal field key: the fixed table, else
the slug `header.replace(/[^a-zA-Z0-9]/g, '').toLowerCase()`. -/
def convertHeaderToKey (h : String) : String :=
  match (headerMapping.find? (fun p => p.1 = h)).map (·.2) with
  | some k => k
  | none => String.mk ((h.data.filter Char.isAlphanum).map Char.toLower)

/-- Rows produced by the parser: a string-keyed JS object. -/
abbrev Row := List (String × String)

/-- Field read `row[k]`. -/
def getField (row : Row) (k : String) : Option String :=
  alGet row k

/-- Zip of values against headers: `article[convertHeaderToKey(h)] =
values[i] || ''` for each header position. -/
def buildRow (headers : List (List Char)) (values : List (List Char)) : Row :=
  headers.enum.foldl
    (fun row p =>
      alSet row (convertHeaderToKey (String.mk p.2))
        (String.mk ((values.get? p.1).getD [])))
    []

/-- Model of part_006's `parseCSV` (lines 1566-1626): strip the BOM, split
into lines, parse headers from the first line, scan each subsequent
non-empty line with `splitCSVLine`, and keep a row only when its
`articleCode` is non-empty (and non-blank after trimming). -/
def parseCSV (text : String) : List Row :=
  let cleanText := stripBOM text.data
  let lines := splitLines cleanText
  if lines.length < 2 then []
  else
    match lines with
    | [] => []
    | headerLine :: rest =>
      let headers := (splitCommas headerLine []).map
        (fun h => stripEdgeQuotes (trimChars h))
      rest.filterMap (fun rawLine =>
        let line := trimChars rawLine
        if line = [] then none
        else
          let values := splitCSVLine line false []
          let article := buildRow headers values
          match getField article "articleCode" with
          | none => none
          | some v => if v ≠ "" ∧ trimChars v.data ≠ [] then some article else none)

/-- Descriptor of one rendered CSV field: `quoted` wraps the content in
double quotes on the wire. -/
structure CSVField where
  quoted : Bool
  content : List Char
deriving DecidableEq

/-- Wire form of one field. -/
def renderField (f : CSVField) : List Char :=
  if f.quoted then '"' :: (f.content ++ ['"']) else f.content

/-- Wire form of a comma-separated line of fields. -/
def renderLine : List CSVField → List Char
  | [] => []
  | [f] => renderField f
  | f :: g :: gs => renderField f ++ ',' :: renderLine (g :: gs)

/-! ## Records, Filter Sets and the filter/search/sort engine
(src/unnamed/part_006, `filterAndSortArticles`, lines 1422-1526) -/

/-- Record fields the filter/search/sort engine reads. -/
structure Article where
  id : String
  articleCode : String
  articleName : String
  colorCode : String
  colorName : String
  treatmentName : String
  «section» : String
  season : String
  supplier : String
  basePriceEUR : String
deriving DecidableEq

/-- Filter Set as stored under `article_filters`. -/
structure FilterSet where
  seasons : List String
  sections : List String
  suppliers : List String
  minPrice : Option String
  maxPrice : Option String
  soldItemsOnly : Bool
deriving DecidableEq

/-- View modes of the index screen. -/
inductive ViewMode
  | all
  | favorites
  | recent
  | searches
deriving DecidableEq

/-- Sort options of the index screen. -/
inductive SortOption
  | name
  | code
  | date
  | price
deriving DecidableEq

/-- Sale record held by the Sales Ledger (src/unnamed/part_004).  The
`timestamp` is the epoch-milliseconds reading of the stored ISO string
(ISO-8601 order agrees with numeric order). -/
structure Sale where
  id : String
  timestamp : Int
  articleId : String
  articleCode : String
  customer : String
  color : String
  quantity : String
  price : String
  currencyEUR : Bool
  unitMt : Bool
deriving DecidableEq

/-- The ledger map `sales_history : articleId → Sale[]`. -/
abbrev SalesHistory := List (String × List Sale)

/-- Read `salesHistory[articleId] || []`. -/
def salesFor (sh : SalesHistory) (articleId : String) : List Sale :=
  alGetD sh articleId []

/-- Season criterion: `a.season && activeFilters.seasons.includes(a.season)`,
applied only when `seasons` is non-empty. -/
def seasonStage (f : FilterSet) (l : List Article) : List Article :=
  if f.seasons ≠ [] then
    l.filter (fun a => a.season ≠ "" && f.seasons.contains a.season)
  else l

/-- Section criterion, as `seasonStage`. -/
def sectionStage (f : FilterSet) (l : List Article) : List Article :=
  if f.sections ≠ [] then
    l.filter (fun a => a.«section» ≠ "" && f.sections.contains a.«section»)
  else l

/-- Supplier criterion, as `seasonStage`. -/
def supplierStage (f : FilterSet) (l : List Article) : List Article :=
  if f.suppliers ≠ [] then
    l.filter (fun a => a.supplier ≠ "" && f.suppliers.contains a.supplier)
  else l

/-- Sold-items criterion: keep records with `salesHistory[a.id].length > 0`. -/
def soldStage (f : FilterSet) (sh : SalesHistory) (l : List Article) : List Article :=
  if f.soldItemsOnly then
    l.filter (fun a => decide (0 < (salesFor sh a.id).length))
  else l

/-- Lower-bound check `price >= min` with `min = minPrice ? parseFloat(minPrice)
: 0`; a NaN bound fails every comparison. -/
def minCheck (f : FilterSet) (p : ℚ) : Bool :=
  if truthyOpt f.minPrice then
    match parseFloatOpt f.minPrice with
    | none => false
    | some m => decide (m ≤ p)
  else decide ((0 : ℚ) ≤ p)

/-- Upper-bound check `price <= max` with `max = maxPrice ? parseFloat(maxPrice)
: Infinity`; a NaN bound fails every comparison. -/
def maxCheck (f : FilterSet) (p : ℚ) : Bool :=
  if truthyOpt f.maxPrice then
    match parseFloatOpt f.maxPrice with
    | none => false
    | some m => decide (p ≤ m)
  else true

/-- Price-range predicate on `parseFloat(a.basePriceEUR || '0')`; a NaN price
fails both comparisons. -/
def pricePred (f : FilterSet) (a : Article) : Bool :=
  match parseFloat (jsOrD a.basePriceEUR "0").data with
  | none => false
  | some p => minCheck f p && maxCheck f p

/-- Price-range criterion, applied when `minPrice || maxPrice` is truthy. -/
def priceStage (f : FilterSet) (l : List Article) : List Article :=
  if truthyOpt f.minPrice || truthyOpt f.maxPrice then
    l.filter (pricePred f)
  else l

/-- Filter Set application: the five criteria in source order. -/
def applyFilters (f : FilterSet) (sh : SalesHistory) (l : List Article) : List Article :=
  priceStage f (soldStage f sh (supplierStage f (sectionStage f (seasonStage f l))))

/-- Free-text search predicate: case-insensitive substring over eight fields. -/
def searchPred (query : String) (a : Article) : Bool :=
  jsIncludes (jsLower a.articleCode) query ||
  jsIncludes (jsLower a.articleName) query ||
  jsIncludes (jsLower a.colorCode) query ||
  jsIncludes (jsLower a.colorName) query ||
  jsIncludes (jsLower a.treatmentName) query ||
  jsIncludes (jsLower a.«section») query ||
  jsIncludes (jsLower a.season) query ||
  jsIncludes (jsLower a.supplier) query

/-- Index of an id in the recent list, `-1` when absent (JS `indexOf`). -/
def recentIndex (recents : List String) (id : String) : Int :=
  match recents.findIdx? (fun s => s = id) with
  | some i => (i : Int)
  | none => -1

/-- Comparator-negative relation for the recency reorder:
`recentArticles.indexOf(a.id) - recentArticles.indexOf(b.id) < 0`. -/
def recentLt (recents : List String) (a b : Article) : Bool :=
  decide (recentIndex recents a.id < recentIndex recents b.id)

/-- Subtraction comparator on parsed prices: negative exactly when both parse
and the first is smaller (any NaN makes `x - y < 0` false). -/
def priceLt (a b : Article) : Bool :=
  match parseFloat (jsOrD a.basePriceEUR "0").data,
        parseFloat (jsOrD b.basePriceEUR "0").data with
  | some x, some y => decide (x < y)
  | _, _ => false

/-- Comparator-negative relation for the sort stage. -/
def sortLt (sort : SortOption) (a b : Article) : Bool :=
  match sort with
  | .name => decide (compareChars a.articleName.data b.articleName.data < 0)
  | .code => decide (compareChars a.articleCode.data b.articleCode.data < 0)
  | .price => priceLt a b
  | .date => false

/-- View-mode restriction: favorites keeps ids in the favorites set; recent
keeps ids in the recent set and reorders by recency rank. -/
def viewModeStage (vm : ViewMode) (favorites recents : List String)
    (l : List Article) : List Article :=
  match vm with
  | .favorites => l.filter (fun a => favorites.contains a.id)
  | .recent => jsSort (recentLt recents) (l.filter (fun a => recents.contains a.id))
  | _ => l

/-- Model of part_006's `filterAndSortArticles`: view-mode restriction, then
Filter Set application (when a Filter Set object is active; a parsed Filter
Set object always has keys, so `Object.keys(activeFilters).length > 0`
holds), then free-text search, then the sort stage (skipped for the recent
view, whose recency order already applied). -/
def filterAndSortArticles (articles : List Article) (vm : ViewMode)
    (favorites recents : List String) (activeFilters : Option FilterSet)
    (sh : SalesHistory) (searchQuery : String) (currentSort : SortOption) :
    List Article :=
  let filtered := viewModeStage vm favorites recents articles
  let filtered :=
    match activeFilters with
    | some f => applyFilters f sh filtered
    | none => filtered
  let filtered :=
    if jsTrim searchQuery ≠ "" then
      filtered.filter (searchPred (jsLower searchQuery))
    else filtered
  if vm ≠ ViewMode.recent then jsSort (sortLt currentSort) filtered else filtered

/-! ## Variant grouping (src/unnamed/part_006, `groupArticles`, lines 1528-1552) -/

/-- Display group over the filtered record sequence. -/
structure ArticleGroup where
  groupKey : String
  mainArticle : Article
  variants : List Article
  variantCount : Nat
deriving DecidableEq

/-- Group key `${articleName || 'Unknown'}_${articleCode || 'NoCode'}`. -/
def groupKeyOf (a : Article) : String :=
  jsOrD a.articleName "Unknown" ++ "_" ++ jsOrD a.articleCode "NoCode"

/-- Append a record to its key's bucket, creating the bucket at the end on
first sight (JS `Map` preserves insertion order). -/
def bucketAdd : List (String × List Article) → String → Article →
    List (String × List Article)
  | [], k, a => [(k, [a])]
  | (k', vs) :: r, k, a =>
    if k' = k then (k', vs ++ [a]) :: r else (k', vs) :: bucketAdd r k a

/-- Fallback record for the unreachable empty-bucket case. -/
def emptyArticle : Article :=
  ⟨"", "", "", "", "", "", "", "", "", ""⟩

/-- Model of `groupArticles`: bucket by group key in encounter order, then
emit one group per bucket with `mainArticle = variants[0]`. -/
def groupArticles (articlesToGroup : List Article) : List ArticleGroup :=
  let groups := articlesToGroup.foldl
    (fun gs a => bucketAdd gs (groupKeyOf a) a) []
  groups.map (fun p =>
    { groupKey := p.1
      mainArticle := p.2.headD emptyArticle
      variants := p.2
      variantCount := p.2.length })

/-! ## Sales Ledger operations (src/unnamed/part_004, lines 185-304) -/

/-- User-entered fields of a sale edit. -/
structure SaleFields where
  customer : String
  color : String
  quantity : String
  price : String
  currencyEUR : Bool
  unitMt : Bool
deriving DecidableEq

/-- Ledger operations: `saveSale` (add branch), `saveSale` (edit branch,
preserving id/timestamp/articleId), `deleteSale`. -/
inductive LedgerOp
  | record (articleId : String) (sale : Sale)
  | update (articleId : String) (saleId : String) (fields : SaleFields)
  | delete (articleId : String) (saleId : String)

/-- In-place replacement used by the edit branch of `saveSale`. -/
def applyEdit (fields : SaleFields) (s : Sale) : Sale :=
  { s with
    customer := jsTrim fields.customer
    color := jsTrim fields.color
    quantity := jsTrim fields.quantity
    price := jsTrim fields.price
    currencyEUR := fields.currencyEUR
    unitMt := fields.unitMt }

/-- State transition of one ledger operation on the stored map. -/
def applyOp (h : SalesHistory) : LedgerOp → SalesHistory
  | .record aid s => alSet h aid (s :: salesFor h aid)
  | .update aid sid fields =>
      alSet h aid ((salesFor h aid).map
        (fun s => if s.id = sid then applyEdit fields s else s))
  | .delete aid sid =>
      match alGet h aid with
      | none => h
      | some l => alSet h aid (l.filter (fun s => s.id ≠ sid))

/-- Read of one article's sales (part_004 lines 185-199): look up the list
and sort it by timestamp descending, `(a, b) => time(b) - time(a)`. -/
def loadSalesHistory (h : SalesHistory) (articleId : String) : List Sale :=
  jsSort (fun a b => decide (b.timestamp < a.timestamp)) (salesFor h articleId)

/-! ## Pricing calculator (src/frontend/app/pricing/[id].tsx) -/

/-- Market regions. -/
inductive Region
  | europe
  | usa
  | other
deriving DecidableEq

/-- One entry of the `MARKETS` table. -/
structure Market where
  label : String
  value : String
  commission : ℚ
  region : Region

/-- The `MARKETS` table (lines 94-100). -/
def MARKETS : List Market :=
  [⟨"Italy", "italy", 5/100, .europe⟩,
   ⟨"Spain", "spain", 6/100, .europe⟩,
   ⟨"France", "france", 5/100, .europe⟩,
   ⟨"USA", "usa", 10/100, .usa⟩,
   ⟨"Other Countries", "other", 5/100, .other⟩]

/-- Transport modes. -/
inductive TransportType
  | truck
  | air
deriving DecidableEq

/-- Form state feeding `calculatePrice` (all user-entered numerics are raw
strings, as in the component state). -/
structure CalcState where
  selectedMarket : String
  customCommission : String
  profitMarginEurope : String
  profitMarginUSA : String
  profitMarginOther : String
  transportTruck : String
  transportAir : String
  useTransport : Bool
  transportType : TransportType
  useSampling : Bool
  samplingRate : String
  fxRate : String
deriving DecidableEq

/-- Model of `calculatePrice` (lines 314-358).  Returns `none` when the
function's early returns fire (no article, empty `basePriceEUR`, unknown
market) and `finalPrice` is not updated; otherwise the computed price. -/
def calculatePrice (article : Option Article) (st : CalcState) : Option ℚ :=
  match article with
  | none => none
  | some a =>
    if a.basePriceEUR = "" then none
    else
      match MARKETS.find? (fun m => m.value = st.selectedMarket) with
      | none => none
      | some market =>
        let basePrice := qOrZero (parseFloat a.basePriceEUR.data)
        let profitMargin := qOrZero (parseFloat
          (match market.region with
           | .europe => st.profitMarginEurope
           | .usa => st.profitMarginUSA
           | .other => st.profitMarginOther).data)
        let price := basePrice + profitMargin
        let commissionRate := qOrZero
          ((parseFloat st.customCommission.data).map (fun q => q / 100))
        let price := price * (1 + commissionRate)
        let price :=
          if st.useTransport then
            price + qOrZero (parseFloat
              (match st.transportType with
               | .truck => st.transportTruck
               | .air => st.transportAir).data)
          else price
        let price :=
          if st.useSampling then
            price * (1 + qOrZero (parseFloat st.samplingRate.data) / 100)
          else price
        let price :=
          if market.region = Region.usa then
            (price * qOrOne (parseFloat st.fxRate.data)) / (109361/100000 : ℚ)
          else price
        some price

/-- Snapshot stored in the pricing history (lines 70-88). -/
structure PricingCalculation where
  id : String
  timestamp : String
  articleId : String
  articleCode : String
  articleName : String
  market : String
  marketLabel : String
  profitMargin : String
  useTransport : Bool
  transportType : Option TransportType
  transportCost : Option String
  useSampling : Bool
  samplingRate : Option String
  fxRate : Option String
  finalPrice : ℚ
  basePrice : ℚ
  commission : ℚ
deriving DecidableEq

/-- The stored map `pricing_history : articleId → PricingCalculation[]`. -/
abbrev PricingHistory := List (String × List PricingCalculation)

/-- Read `allHistory[articleId] || []`. -/
def pricingFor (h : PricingHistory) (articleId : String) : List PricingCalculation :=
  alGetD h articleId []

/-- Model of `savePricingCalculation`'s history mutation (lines 232-248):
ensure the article's list exists, unshift the new calculation, and keep only
the first 20 entries when the list exceeds 20. -/
def savePricingCalculation (h : PricingHistory) (articleId : String)
    (pc : PricingCalculation) : PricingHistory :=
  let l := pc :: pricingFor h articleId
  let l := if l.length > 20 then l.take 20 else l
  alSet h articleId l

/-! ## Concrete instances used by witnesses and counterexamples -/

/-- Article with base price 10 EUR. -/
def article10 : Article :=
  { emptyArticle with id := "a1", articleCode := "AB1", basePriceEUR := "10" }

/-- Calculator state of the spec's USA example: USA market, 10% commission,
margin 1.20, FX 1.10, no transport, no sampling. -/
def usaCalcState : CalcState :=
  { selectedMarket := "usa", customCommission := "10",
    profitMarginEurope := "0.80", profitMarginUSA := "1.20",
    profitMarginOther := "1.00", transportTruck := "0.30",
    transportAir := "1.00", useTransport := false, transportType := .truck,
    useSampling := false, samplingRate := "30", fxRate := "1.10" }

/-- The USA state with a non-numeric FX rate. -/
def fxNaNState : CalcState :=
  { usaCalcState with fxRate := "abc" }

/-- Stored calculation used to populate a full pricing history. -/
def pc0 : PricingCalculation :=
  { id := "0", timestamp := "2025-01-01T00:00:00.000Z", articleId := "a1",
    articleCode := "AB1", articleName := "N/A", market := "italy",
    marketLabel := "Italy", profitMargin := "0.80", useTransport := false,
    transportType := none, transportCost := none, useSampling := false,
    samplingRate := none, fxRate := none, finalPrice := 567/50,
    basePrice := 10, commission := 5/100 }

/-- A pricing history whose article `a1` already holds 20 calculations. -/
def hist20 : PricingHistory :=
  [("a1", List.replicate 20 pc0)]

/-- Filter Set with every field empty/false. -/
def emptyFS : FilterSet :=
  ⟨[], [], [], none, none, false⟩

/-- Filter Set selecting only sold items. -/
def soldFS : FilterSet :=
  ⟨[], [], [], none, none, true⟩

/-- Article with at least one sale in `shEx`. -/
def soldArt : Article :=
  { emptyArticle with id := "s1", articleCode := "S1" }

/-- Article with no sales in `shEx`. -/
def unsoldArt : Article :=
  { emptyArticle with id := "u1", articleCode := "U1" }

/-- One-entry sales ledger: article `s1` has a single sale. -/
def shEx : SalesHistory :=
  [("s1", [{ id := "1000", timestamp := 1000, articleId := "s1",
             articleCode := "S1", customer := "ACME", color := "Blue",
             quantity := "100", price := "12.5", currencyEUR := true,
             unitMt := true }])]

/-- Article whose base price parses negative. -/
def artNeg : Article :=
  { emptyArticle with id := "n1", articleCode := "N1", basePriceEUR := "-3" }

/-- Filter Set with only a maxPrice bound. -/
def fMax : FilterSet :=
  ⟨[], [], [], none, some "10", false⟩

/-- The `fMax` Filter Set with a negative minPrice added. -/
def fMaxMin : FilterSet :=
  ⟨[], [], [], some "-5", some "10", false⟩

/-- The `fMax` Filter Set with a nonnegative minPrice added. -/
def fMinOk : FilterSet :=
  ⟨[], [], [], some "5", some "10", false⟩

/-- Rendered CSV fields of the spec's quoted-comma example. -/
def csvFieldsEx : List CSVField :=
  [⟨true, "Smith, John".data⟩, ⟨false, "ACME".data⟩]

/-- The Filter Set relation of claim C7: every criterion enabled in the
first set is enabled in the second with the same value. -/
def FilterExtends (f1 f2 : FilterSet) : Prop :=
  (f1.seasons ≠ [] → f1.seasons = f2.seasons) ∧
  (f1.sections ≠ [] → f1.sections = f2.sections) ∧
  (f1.suppliers ≠ [] → f1.suppliers = f2.suppliers) ∧
  (f1.soldItemsOnly = true → f2.soldItemsOnly = true) ∧
  (truthyOpt f1.minPrice = true → f1.minPrice = f2.minPrice) ∧
  (truthyOpt f1.maxPrice = true → f1.maxPrice = f2.maxPrice)

instance (f1 f2 : FilterSet) : Decidable (FilterExtends f1 f2) := by
  unfold FilterExtends
  infer_instance

/-! ## Generic lemmas about the JS-model primitives -/

theorem mem_jsInsert {lt : α → α → Bool} {x a : α} :
    ∀ {l : List α}, a ∈ jsInsert lt x l ↔ a = x ∨ a ∈ l := by
  intro l
  induction l with
  | nil => simp [jsInsert]
  | cons y ys ih =>
    by_cases h : lt x y
    · simp [jsInsert, h]
    · simp [jsInsert, h, ih]
      tauto

theorem length_jsInsert {lt : α → α → Bool} {x : α} :
    ∀ {l : List α}, (jsInsert lt x l).length = l.length + 1 := by
  intro l
  induction l with
  | nil => simp [jsInsert]
  | cons y ys ih =>
    by_cases h : lt x y <;> simp [jsInsert, h, ih]

theorem length_jsSort {lt : α → α → Bool} (l : List α) :
    (jsSort lt l).length = l.length := by
  suffices h : ∀ acc : List α,
      (l.foldl (fun acc x => jsInsert lt x acc) acc).length = acc.length + l.length by
    simpa using h []
  induction l with
  | nil => simp
  | cons x xs ih =>
    intro acc
    simp only [List.foldl_cons, ih, length_jsInsert, List.length_cons]
    omega

theorem mem_jsSort {lt : α → α → Bool} {a : α} {l : List α} :
    a ∈ jsSort lt l ↔ a ∈ l := by
  suffices h : ∀ acc : List α,
      a ∈ l.foldl (fun acc x => jsInsert lt x acc) acc ↔ a ∈ acc ∨ a ∈ l by
    simpa using h []
  induction l with
  | nil => simp
  | cons x xs ih =>
    intro acc
    simp only [List.foldl_cons, ih, mem_jsInsert]
    simp
    tauto

theorem pairwise_jsInsert {R : α → α → Prop} {lt : α → α → Bool}
    (h1 : ∀ x y, lt x y = true → R x y) (h2 : ∀ x y, lt x y = false → R y x)
    (htrans : ∀ a b c, R a b → R b c → R a c) {x : α} :
    ∀ {l : List α}, l.Pairwise R → (jsInsert lt x l).Pairwise R := by
  intro l
  induction l with
  | nil => intro _; simp [jsInsert]
  | cons y ys ih =>
    intro hl
    rw [List.pairwise_cons] at hl
    obtain ⟨hy, hys⟩ := hl
    by_cases h : lt x y
    · rw [jsInsert, if_pos h, List.pairwise_cons]
      refine ⟨?_, by rw [List.pairwise_cons]; exact ⟨hy, hys⟩⟩
      intro z hz
      rcases List.mem_cons.mp hz with rfl | hz'
      · exact h1 _ _ h
      · exact htrans _ _ _ (h1 _ _ h) (hy z hz')
    · rw [jsInsert, if_neg h, List.pairwise_cons]
      refine ⟨?_, ih hys⟩
      intro z hz
      rcases mem_jsInsert.mp hz with rfl | hz'
      · exact h2 _ _ (by simpa using h)
      · exact hy z hz'

theorem pairwise_jsSort {R : α → α → Prop} {lt : α → α → Bool}
    (h1 : ∀ x y, lt x y = true → R x y) (h2 : ∀ x y, lt x y = false → R y x)
    (htrans : ∀ a b c, R a b → R b c → R a c) (l : List α) :
    (jsSort lt l).Pairwise R := by
  suffices h : ∀ acc : List α, acc.Pairwise R →
      (l.foldl (fun acc x => jsInsert lt x acc) acc).Pairwise R by
    exact h [] (by simp)
  induction l with
  | nil => intro acc hacc; simpa using hacc
  | cons x xs ih =>
    intro acc hacc
    exact ih _ (pairwise_jsInsert h1 h2 htrans hacc)

theorem jsInsert_of_lt_false {lt : α → α → Bool} {x : α}
    (hlt : ∀ a b, lt a b = false) : ∀ (l : List α), jsInsert lt x l = l ++ [x] := by
  intro l
  induction l with
  | nil => simp [jsInsert]
  | cons y ys ih => simp [jsInsert, hlt, ih]

theorem jsSort_of_lt_false {lt : α → α → Bool}
    (hlt : ∀ a b, lt a b = false) (l : List α) : jsSort lt l = l := by
  suffices h : ∀ acc : List α,
      l.foldl (fun acc x => jsInsert lt x acc) acc = acc ++ l by
    simpa using h []
  induction l with
  | nil => simp
  | cons x xs ih =>
    intro acc
    rw [List.foldl_cons, jsInsert_of_lt_false hlt, ih, List.append_assoc]
    rfl

theorem alGet_alSet_self {β : Type _} (l : List (String × β)) (k : String) (v : β) :
    alGet (alSet l k v) k = some v := by
  induction l with
  | nil => simp [alSet, alGet]
  | cons p r ih =>
    obtain ⟨k', v'⟩ := p
    by_cases hk : k' = k
    · simp [alSet, hk, alGet]
    · simp only [alSet, if_neg hk]
      rw [alGet, List.find?_cons_of_neg _ (by simpa using hk)]
      exact ih

theorem pricingFor_alSet (h : PricingHistory) (aid : String)
    (l : List PricingCalculation) : pricingFor (alSet h aid l) aid = l := by
  simp [pricingFor, alGetD, alGet_alSet_self]

theorem salesFor_alSet (h : SalesHistory) (aid : String) (l : List Sale) :
    salesFor (alSet h aid l) aid = l := by
  simp [salesFor, alGetD, alGet_alSet_self]

/-! ## Evaluation helpers for concrete parses -/

theorem parseFloat_of_rep {s : List Char} {r : FloatRep}
    (h : parseFloatRep s = some r) : parseFloat s = some (repToRat r) := by
  rw [parseFloat, h, Option.map_some']

theorem parseFloat_of_rep_none {s : List Char}
    (h : parseFloatRep s = none) : parseFloat s = none := by
  rw [parseFloat, h, Option.map_none']

theorem parseFloat_ten : parseFloat ['1', '0'] = some 10 := by
  rw [parseFloat_of_rep (show parseFloatRep ['1', '0'] = some ⟨false, 10, 0, 0, 0⟩ by decide)]
  norm_num [repToRat]

theorem parseFloat_one_twenty : parseFloat ['1', '.', '2', '0'] = some (6/5 : ℚ) := by
  rw [parseFloat_of_rep
    (show parseFloatRep ['1', '.', '2', '0'] = some ⟨false, 1, 20, 2, 0⟩ by decide)]
  norm_num [repToRat]

theorem parseFloat_one_ten : parseFloat ['1', '.', '1', '0'] = some (11/10 : ℚ) := by
  rw [parseFloat_of_rep
    (show parseFloatRep ['1', '.', '1', '0'] = some ⟨false, 1, 10, 2, 0⟩ by decide)]
  norm_num [repToRat]

theorem parseFloat_abc : parseFloat ['a', 'b', 'c'] = none :=
  parseFloat_of_rep_none (by decide)

theorem parseFloat_neg3 : parseFloat ['-', '3'] = some (-3 : ℚ) := by
  rw [parseFloat_of_rep (show parseFloatRep ['-', '3'] = some ⟨true, 3, 0, 0, 0⟩ by decide)]
  norm_num [repToRat]

theorem parseFloat_neg5 : parseFloat ['-', '5'] = some (-5 : ℚ) := by
  rw [parseFloat_of_rep (show parseFloatRep ['-', '5'] = some ⟨true, 5, 0, 0, 0⟩ by decide)]
  norm_num [repToRat]

theorem parseFloat_five : parseFloat ['5'] = some (5 : ℚ) := by
  rw [parseFloat_of_rep (show parseFloatRep ['5'] = some ⟨false, 5, 0, 0, 0⟩ by decide)]
  norm_num [repToRat]

theorem parseFloat_zero : parseFloat ['0'] = some (0 : ℚ) := by
  rw [parseFloat_of_rep (show parseFloatRep ['0'] = some ⟨false, 0, 0, 0, 0⟩ by decide)]
  norm_num [repToRat]

theorem parseFloat_one : parseFloat ['1'] = some (1 : ℚ) := by
  rw [parseFloat_of_rep (show parseFloatRep ['1'] = some ⟨false, 1, 0, 0, 0⟩ by decide)]
  norm_num [repToRat]

theorem findMarket_usa : MARKETS.find? (fun m => m.value = "usa") =
    some ⟨"USA", "usa", 10/100, Region.usa⟩ := rfl

/-! ## Claim C10: the grouping key is not injective -/

/-- C10: the grouping key `articleName + "_" + articleCode` is not injective:
the records (name `A_B`, code `C`) and (name `A`, code `B_C`) differ in both
fields yet receive the same key `A_B_C`, so `groupArticles` merges them into
a single Article Group whose main record is the earlier one and which reports
the later record as a variant (variantCount 2). -/
theorem groupKey_collision_merges_records :
    groupKeyOf { emptyArticle with id := "id1", articleName := "A_B", articleCode := "C" } =
      groupKeyOf { emptyArticle with id := "id2", articleName := "A", articleCode := "B_C" } ∧
    ({ emptyArticle with id := "id1", articleName := "A_B", articleCode := "C" } : Article).articleName ≠
      ({ emptyArticle with id := "id2", articleName := "A", articleCode := "B_C" } : Article).articleName ∧
    ({ emptyArticle with id := "id1", articleName := "A_B", articleCode := "C" } : Article).articleCode ≠
      ({ emptyArticle with id := "id2", articleName := "A", articleCode := "B_C" } : Article).articleCode ∧
    groupArticles
      [{ emptyArticle with id := "id1", articleName := "A_B", articleCode := "C" },
       { emptyArticle with id := "id2", articleName := "A", articleCode := "B_C" }] =
      [{ groupKey := "A_B_C",
         mainArticle := { emptyArticle with id := "id1", articleName := "A_B", articleCode := "C" },
         variants := [{ emptyArticle with id := "id1", articleName := "A_B", articleCode := "C" },
                      { emptyArticle with id := "id2", articleName := "A", articleCode := "B_C" }],
         variantCount := 2 }] := by
  decide

/-! ## Claim C6: pricing-history eviction at 20 entries -/

/-- C6: saving a pricing calculation for an article that already has 20
stored calculations leaves exactly 20 entries, with the new calculation
first and the oldest (last, since the list is newest-first) entry removed;
moreover a save never leaves more than 20 entries for the saved article. -/
theorem savePricingCalculation_evicts_oldest (h : PricingHistory) (aid : String)
    (pc : PricingCalculation) (h20 : (pricingFor h aid).length = 20) :
    pricingFor (savePricingCalculation h aid pc) aid =
      pc :: (pricingFor h aid).dropLast ∧
    (pricingFor (savePricingCalculation h aid pc) aid).length = 20 ∧
    ∀ (h2 : PricingHistory) (aid2 : String) (pc2 : PricingCalculation),
      (pricingFor (savePricingCalculation h2 aid2 pc2) aid2).length ≤ 20 := by
  have key : ∀ (h2 : PricingHistory) (aid2 : String) (pc2 : PricingCalculation),
      pricingFor (savePricingCalculation h2 aid2 pc2) aid2 =
        if (pc2 :: pricingFor h2 aid2).length > 20 then
          (pc2 :: pricingFor h2 aid2).take 20
        else pc2 :: pricingFor h2 aid2 := by
    intro h2 aid2 pc2
    simp only [savePricingCalculation, pricingFor_alSet]
  refine ⟨?_, ?_, ?_⟩
  · rw [key, if_pos (by simp [h20]), show (20 : Nat) = 19 + 1 from rfl,
      List.take_succ_cons, List.dropLast_eq_take, h20]
  · rw [key, if_pos (by simp [h20])]
    simp [h20]
  · intro h2 aid2 pc2
    rw [key]
    split
    · simp
    · simp only [List.length_cons] at *
      omega

/-- Witness for C6 at a concrete full history. -/
theorem savePricingCalculation_evicts_oldest_witness :
    pricingFor (savePricingCalculation hist20 "a1" pc0) "a1" =
      pc0 :: (pricingFor hist20 "a1").dropLast :=
  (savePricingCalculation_evicts_oldest hist20 "a1" pc0 (by decide)).1

/-! ## Claim C5: ledger reads are timestamp-descending -/

/-- C5: after any sequence of Record/Update/Delete operations on the Sales
Ledger (starting from the empty ledger), reading a given article's sale
list through `loadSalesHistory` returns the sales sorted by timestamp
descending; the ordering is re-derived by the sort in the read itself. -/
theorem loadSalesHistory_timestamp_descending (ops : List LedgerOp)
    (articleId : String) :
    (loadSalesHistory (ops.foldl applyOp []) articleId).Pairwise
      (fun a b => b.timestamp ≤ a.timestamp) := by
  apply pairwise_jsSort
  · intro x y hxy
    have : y.timestamp < x.timestamp := by simpa using hxy
    omega
  · intro x y hxy
    have : ¬ y.timestamp < x.timestamp := by simpa using hxy
    omega
  · intro a b c hab hbc
    omega

/-! ## Claim C8: an all-empty Filter Set behaves as no Filter Set -/

/-- Emptiness of a Filter Set in the sense of the "no filter" rule. -/
def IsEmptyFilter (f : FilterSet) : Prop :=
  f.seasons = [] ∧ f.sections = [] ∧ f.suppliers = [] ∧
  truthyOpt f.minPrice = false ∧ truthyOpt f.maxPrice = false ∧
  f.soldItemsOnly = false

/-- C8: for every record collection, view mode, search query and sort key,
the pipeline with a Filter Set whose fields are all empty/false returns
exactly the pipeline's result with no Filter Set at all. -/
theorem emptyFilterSet_eq_noFilterSet (articles : List Article) (vm : ViewMode)
    (favorites recents : List String) (sh : SalesHistory) (q : String)
    (sort : SortOption) (f : FilterSet) (hf : IsEmptyFilter f) :
    filterAndSortArticles articles vm favorites recents (some f) sh q sort =
      filterAndSortArticles articles vm favorites recents none sh q sort := by
  obtain ⟨h1, h2, h3, h4, h5, h6⟩ := hf
  unfold filterAndSortArticles applyFilters priceStage soldStage supplierStage
    sectionStage seasonStage
  simp [h1, h2, h3, h4, h5, h6]

/-- Witness for C8 at a concrete collection and the all-empty Filter Set. -/
theorem emptyFilterSet_eq_noFilterSet_witness :
    filterAndSortArticles [soldArt, unsoldArt] ViewMode.all [] [] (some emptyFS)
        shEx "" SortOption.name =
      filterAndSortArticles [soldArt, unsoldArt] ViewMode.all [] [] none
        shEx "" SortOption.name :=
  emptyFilterSet_eq_noFilterSet [soldArt, unsoldArt] ViewMode.all [] [] shEx ""
    SortOption.name emptyFS ⟨rfl, rfl, rfl, rfl, rfl, rfl⟩

/-! ## Claim C4: the USA conversion example -/

/-- Counterexample for C4 as stated: at basePriceEUR=10, margin=1.20,
commission 10%, fxRate=1.10, no transport/sampling, the computed final
price is 12.32*1.10/1.09361 = 1355200/109361 = 12.39198..., which differs
from the claimed approximation 12.3901 by more than 0.001, so it is not
≈ 12.3901 to the four decimal places stated. -/
theorem usa_example_price_not_12_3901 :
    calculatePrice (some article10) usaCalcState = some (1355200/109361 : ℚ) ∧
    |(1355200/109361 : ℚ) - 123901/10000| > 1/1000 := by
  constructor
  · simp only [calculatePrice, article10, usaCalcState, emptyArticle]
    norm_num [findMarket_usa, parseFloat_ten, parseFloat_one_twenty,
      parseFloat_one_ten, qOrZero, qOrOne,
      show ¬("10" : String) = "" by decide]
  · rw [abs_of_pos (by norm_num)]
    norm_num

/-- C4 (amended): for the USA market the calculator multiplies the EUR price
by the FX rate and divides by 1.09361; at basePriceEUR=10, margin=1.20,
commission 10%, fxRate=1.10, no transport/sampling the EUR price is
(10+1.20)*1.10 = 12.32 and the final price is 12.32*1.10/1.09361 =
1355200/109361 ≈ 12.3920 USD/yrd. -/
theorem usa_example_price_value :
    calculatePrice (some article10) usaCalcState =
      some ((1232/100 : ℚ) * (110/100) / (109361/100000)) ∧
    (1232/100 : ℚ) = (10 + 120/100) * (1 + 10/100) ∧
    |(1232/100 : ℚ) * (110/100) / (109361/100000) - 123920/10000| < 1/10000 := by
  refine ⟨?_, by norm_num, ?_⟩
  · simp only [calculatePrice, article10, usaCalcState, emptyArticle]
    norm_num [findMarket_usa, parseFloat_ten, parseFloat_one_twenty,
      parseFloat_one_ten, qOrZero, qOrOne,
      show ¬("10" : String) = "" by decide]
  · rw [abs_of_neg (by norm_num)]
    norm_num

/-! ## Claim C1: parse-failure defaults in the pricing calculator -/

/-- Normal form of `calculatePrice` once the early returns are passed. -/
theorem calculatePrice_some_eq (a : Article) (st : CalcState) (market : Market)
    (hbase : ¬ a.basePriceEUR = "")
    (hm : MARKETS.find? (fun m => m.value = st.selectedMarket) = some market) :
    calculatePrice (some a) st = some (
      (if st.useSampling then
        ((qOrZero (parseFloat a.basePriceEUR.data) +
            qOrZero (parseFloat (match market.region with
              | .europe => st.profitMarginEurope
              | .usa => st.profitMarginUSA
              | .other => st.profitMarginOther).data)) *
          (1 + qOrZero ((parseFloat st.customCommission.data).map (fun q => q / 100))) +
          (if st.useTransport then
            qOrZero (parseFloat (match st.transportType with
              | .truck => st.transportTruck
              | .air => st.transportAir).data)
           else 0)) * (1 + qOrZero (parseFloat st.samplingRate.data) / 100)
       else
        (qOrZero (parseFloat a.basePriceEUR.data) +
            qOrZero (parseFloat (match market.region with
              | .europe => st.profitMarginEurope
              | .usa => st.profitMarginUSA
              | .other => st.profitMarginOther).data)) *
          (1 + qOrZero ((parseFloat st.customCommission.data).map (fun q => q / 100))) +
          (if st.useTransport then
            qOrZero (parseFloat (match st.transportType with
              | .truck => st.transportTruck
              | .air => st.transportAir).data)
           else 0)) *
      (if market.region = Region.usa then qOrOne (parseFloat st.fxRate.data) else 1) /
      (if market.region = Region.usa then (109361/100000 : ℚ) else 1)) := by
  simp only [calculatePrice, hm, if_neg hbase]
  by_cases hs : st.useSampling <;> by_cases ht : st.useTransport <;>
    by_cases hu : market.region = Region.usa <;>
      simp [hs, ht, hu]

/-- Counterexample for C1 as stated: with the USA market and the non-numeric
FX rate `"abc"`, the calculator still computes a price, but the failed FX
parse contributes the neutral factor 1 (`parseFloat(fxRate) || 1`), not 0:
the result (10+1.20)*1.10*1/1.09361 = 1232000/109361 is nonzero, whereas an
FX contribution of 0 would force a zero final price. -/
theorem fx_parse_failure_contributes_one_not_zero :
    parseFloat fxNaNState.fxRate.data = none ∧
    calculatePrice (some article10) fxNaNState = some (1232000/109361 : ℚ) ∧
    (1232000/109361 : ℚ) ≠ 0 := by
  refine ⟨by simp [fxNaNState, usaCalcState, parseFloat_abc], ?_, by norm_num⟩
  simp only [calculatePrice, fxNaNState, article10, usaCalcState, emptyArticle]
  norm_num [findMarket_usa, parseFloat_ten, parseFloat_one_twenty,
    parseFloat_abc, qOrZero, qOrOne,
    show ¬("10" : String) = "" by decide]

/-- C1 (amended): whenever the calculator computes at all (article present,
non-empty base price, known market), a parse failure in base price, profit
margin, commission, transport cost or sampling rate makes that field
contribute as 0 (same result as entering "0"), and the computation never
errors; but a parse failure in the FX rate contributes as the neutral factor
1 (same result as entering "1"), not 0; and an empty base price skips the
computation entirely. -/
theorem calculatePrice_parse_defaults (a : Article) (st : CalcState)
    (market : Market) (hbase : ¬ a.basePriceEUR = "")
    (hm : MARKETS.find? (fun m => m.value = st.selectedMarket) = some market) :
    (calculatePrice (some a) st).isSome = true ∧
    (parseFloat a.basePriceEUR.data = none →
      calculatePrice (some a) st =
        calculatePrice (some { a with basePriceEUR := "0" }) st) ∧
    (parseFloat st.profitMarginEurope.data = none →
      calculatePrice (some a) st =
        calculatePrice (some a) { st with profitMarginEurope := "0" }) ∧
    (parseFloat st.profitMarginUSA.data = none →
      calculatePrice (some a) st =
        calculatePrice (some a) { st with profitMarginUSA := "0" }) ∧
    (parseFloat st.profitMarginOther.data = none →
      calculatePrice (some a) st =
        calculatePrice (some a) { st with profitMarginOther := "0" }) ∧
    (parseFloat st.customCommission.data = none →
      calculatePrice (some a) st =
        calculatePrice (some a) { st with customCommission := "0" }) ∧
    (parseFloat st.transportTruck.data = none →
      calculatePrice (some a) st =
        calculatePrice (some a) { st with transportTruck := "0" }) ∧
    (parseFloat st.transportAir.data = none →
      calculatePrice (some a) st =
        calculatePrice (some a) { st with transportAir := "0" }) ∧
    (parseFloat st.samplingRate.data = none →
      calculatePrice (some a) st =
        calculatePrice (some a) { st with samplingRate := "0" }) ∧
    (parseFloat st.fxRate.data = none →
      calculatePrice (some a) st =
        calculatePrice (some a) { st with fxRate := "1" }) ∧
    (∀ (a2 : Article) (st2 : CalcState),
      calculatePrice (some { a2 with basePriceEUR := "" }) st2 = none) := by
  have base := calculatePrice_some_eq a st market hbase hm
  refine ⟨by rw [base]; rfl, ?_, ?_, ?_, ?_, ?_, ?_, ?_, ?_, ?_, ?_⟩
  · intro h
    rw [base, calculatePrice_some_eq { a with basePriceEUR := "0" } st market
      (by simp) hm]
    simp [h, parseFloat_zero, qOrZero]
  · intro h
    rw [base, calculatePrice_some_eq a { st with profitMarginEurope := "0" }
      market hbase (by simpa using hm)]
    cases hreg : market.region <;> simp [h, hreg, parseFloat_zero, qOrZero]
  · intro h
    rw [base, calculatePrice_some_eq a { st with profitMarginUSA := "0" }
      market hbase (by simpa using hm)]
    cases hreg : market.region <;> simp [h, hreg, parseFloat_zero, qOrZero]
  · intro h
    rw [base, calculatePrice_some_eq a { st with profitMarginOther := "0" }
      market hbase (by simpa using hm)]
    cases hreg : market.region <;> simp [h, hreg, parseFloat_zero, qOrZero]
  · intro h
    rw [base, calculatePrice_some_eq a { st with customCommission := "0" }
      market hbase (by simpa using hm)]
    simp [h, parseFloat_zero, qOrZero]
  · intro h
    rw [base, calculatePrice_some_eq a { st with transportTruck := "0" }
      market hbase (by simpa using hm)]
    cases htt : st.transportType <;> simp [h, htt, parseFloat_zero, qOrZero]
  · intro h
    rw [base, calculatePrice_some_eq a { st with transportAir := "0" }
      market hbase (by simpa using hm)]
    cases htt : st.transportType <;> simp [h, htt, parseFloat_zero, qOrZero]
  · intro h
    rw [base, calculatePrice_some_eq a { st with samplingRate := "0" }
      market hbase (by simpa using hm)]
    simp [h, parseFloat_zero, qOrZero]
  · intro h
    rw [base, calculatePrice_some_eq a { st with fxRate := "1" }
      market hbase (by simpa using hm)]
    simp [h, parseFloat_one, qOrOne]
  · intro a2 st2
    simp [calculatePrice]

/-- Witness for C1 (amended) at the concrete USA state with `fxRate "abc"`. -/
theorem calculatePrice_parse_defaults_witness :
    (calculatePrice (some article10) fxNaNState).isSome = true ∧
    calculatePrice (some article10) fxNaNState =
      calculatePrice (some article10) { fxNaNState with fxRate := "1" } := by
  have h := calculatePrice_parse_defaults article10 fxNaNState
    ⟨"USA", "usa", 10/100, Region.usa⟩ (by decide) rfl
  exact ⟨h.1, h.2.2.2.2.2.2.2.2.2.1 (by simp [fxNaNState, usaCalcState, parseFloat_abc])⟩

/-! ## Claim C9: rows without an articleCode never appear; short input -/

/-- C9: for any raw text, every row in the parser's output carries an
`articleCode` field that is non-empty after trimming, and input with fewer
than two lines yields the empty sequence rather than an error. -/
theorem parseCSV_requires_articleCode (text : String) :
    (∀ row ∈ parseCSV text,
      ∃ v, getField row "articleCode" = some v ∧ trimChars v.data ≠ []) ∧
    ((splitLines (stripBOM text.data)).length < 2 → parseCSV text = []) := by
  constructor
  · intro row hrow
    rw [parseCSV] at hrow
    split at hrow
    · simp at hrow
    · split at hrow
      · simp at hrow
      · rename_i lines hlen headerLine rest heq
        obtain ⟨rawLine, _, hg⟩ := List.mem_filterMap.mp hrow
        dsimp only at hg
        split at hg
        · exact absurd hg (by simp)
        · split at hg
          · exact absurd hg (by simp)
          · rename_i v hv
            split at hg
            · rename_i hcond
              rw [Option.some.injEq] at hg
              subst hg
              exact ⟨v, hv, hcond.2⟩
            · exact absurd hg (by simp)
  · intro hshort
    rw [parseCSV]
    rw [if_pos hshort]

/-- Witness for C9: a concrete import where the row lacking an articleCode is
dropped, and a headers-only text parses to the empty sequence. -/
theorem parseCSV_requires_articleCode_witness :
    (∃ v, getField [("articleCode", "AB1"), ("articleName", "Smith, John")]
        "articleCode" = some v ∧ trimChars v.data ≠ []) ∧
    parseCSV "Article Code,Article Name" = [] := by
  constructor
  · exact (parseCSV_requires_articleCode
      "Article Code,Article Name\nAB1,\"Smith, John\"\n,missing").1
      [("articleCode", "AB1"), ("articleName", "Smith, John")] (by decide)
  · exact (parseCSV_requires_articleCode "Article Code,Article Name").2 (by decide)

/-! ## Claim C2: commas inside quotes are not field separators -/

/-- Step equation: a double quote toggles the flag and is not accumulated. -/
theorem splitCSVLine_cons_quote (rest : List Char) (insideQuotes : Bool)
    (cur : List Char) :
    splitCSVLine ('"' :: rest) insideQuotes cur =
      splitCSVLine rest (!insideQuotes) cur := by
  simp [splitCSVLine]

/-- Step equation: a comma outside quotes flushes the trimmed value. -/
theorem splitCSVLine_cons_sep (rest cur : List Char) :
    splitCSVLine (',' :: rest) false cur =
      trimChars cur :: splitCSVLine rest false [] := by
  simp [splitCSVLine]

/-- Step equation: any other character (or a comma inside quotes) is
accumulated. -/
theorem splitCSVLine_cons_char (c : Char) (rest : List Char)
    (insideQuotes : Bool) (cur : List Char) (h1 : ¬ c = '"')
    (h2 : ¬ (c = ',' ∧ insideQuotes = false)) :
    splitCSVLine (c :: rest) insideQuotes cur =
      splitCSVLine rest insideQuotes (cur ++ [c]) := by
  simp only [splitCSVLine, if_neg h1, if_neg h2]

/-- Scanning quote-free, comma-free characters outside quotes just
accumulates them. -/
theorem splitCSVLine_scan_unquoted (c : List Char)
    (hq : ∀ ch ∈ c, ch ≠ '"' ∧ ch ≠ ',') (s cur : List Char) :
    splitCSVLine (c ++ s) false cur = splitCSVLine s false (cur ++ c) := by
  induction c generalizing cur with
  | nil => simp
  | cons ch cs ih =>
    rw [List.cons_append, splitCSVLine_cons_char ch (cs ++ s) false cur
      (hq ch (by simp)).1 (fun hc => (hq ch (by simp)).2 hc.1)]
    rw [ih (fun x hx => hq x (by simp [hx])) (cur ++ [ch])]
    simp

/-- Scanning quote-free characters inside quotes accumulates them, commas
included: a comma is a separator only when not inside quotes. -/
theorem splitCSVLine_scan_quoted (c : List Char)
    (hq : ∀ ch ∈ c, ch ≠ '"') (s cur : List Char) :
    splitCSVLine (c ++ s) true cur = splitCSVLine s true (cur ++ c) := by
  induction c generalizing cur with
  | nil => simp
  | cons ch cs ih =>
    rw [List.cons_append, splitCSVLine_cons_char ch (cs ++ s) true cur
      (hq ch (by simp)) (fun hc => by cases hc.2)]
    rw [ih (fun x hx => hq x (by simp [hx])) (cur ++ [ch])]
    simp

/-- One rendered field followed by a comma scans to exactly one flushed
value (quotes stripped, trimmed). -/
theorem splitCSVLine_field_cons (f : CSVField) (rest : List Char)
    (hqz : ∀ ch ∈ f.content, ch ≠ '"')
    (hcz : f.quoted = false → ∀ ch ∈ f.content, ch ≠ ',') :
    splitCSVLine (renderField f ++ ',' :: rest) false [] =
      trimChars f.content :: splitCSVLine rest false [] := by
  cases hfq : f.quoted
  · rw [renderField, if_neg (by simp [hfq])]
    rw [splitCSVLine_scan_unquoted f.content
      (fun x hx => ⟨hqz x hx, hcz hfq x hx⟩) (',' :: rest) []]
    rw [List.nil_append, splitCSVLine_cons_sep]
  · rw [renderField, if_pos (by simp [hfq])]
    rw [List.cons_append, splitCSVLine_cons_quote, Bool.not_false,
      List.append_assoc, List.singleton_append]
    rw [splitCSVLine_scan_quoted f.content hqz _ []]
    rw [List.nil_append, splitCSVLine_cons_quote, Bool.not_true,
      splitCSVLine_cons_sep]

/-- A final rendered field scans to one flushed value. -/
theorem splitCSVLine_field_last (f : CSVField)
    (hqz : ∀ ch ∈ f.content, ch ≠ '"')
    (hcz : f.quoted = false → ∀ ch ∈ f.content, ch ≠ ',') :
    splitCSVLine (renderField f) false [] = [trimChars f.content] := by
  cases hfq : f.quoted
  · rw [renderField, if_neg (by simp [hfq])]
    rw [show f.content = f.content ++ [] by simp]
    rw [splitCSVLine_scan_unquoted f.content
      (fun x hx => ⟨hqz x hx, hcz hfq x (by simpa using hx)⟩) [] []]
    simp [splitCSVLine]
  · rw [renderField, if_pos (by simp [hfq])]
    rw [show ('"' :: (f.content ++ ['"']) : List Char) =
      '"' :: (f.content ++ ('"' :: [])) by simp]
    rw [splitCSVLine_cons_quote, Bool.not_false]
    rw [show ('"' :: ([] : List Char)) = ['"'] ++ [] by simp,
      show f.content ++ (['"'] ++ []) = f.content ++ ['"'] ++ [] by simp]
    rw [List.append_assoc, List.singleton_append]
    rw [splitCSVLine_scan_quoted f.content hqz _ []]
    rw [List.nil_append, splitCSVLine_cons_quote, Bool.not_true]
    simp [splitCSVLine]

/-- C2: for every CSV line made of fields whose contents hold no double
quote (and, for unquoted fields, no comma), the character scan returns one
value per field — in particular a quoted value containing commas is parsed
as a single field, because `,` separates only when not inside quotes. -/
theorem splitCSVLine_quoted_commas_one_field (fs : List CSVField)
    (hne : fs ≠ [])
    (hok : ∀ f ∈ fs, (∀ ch ∈ f.content, ch ≠ '"') ∧
      (f.quoted = false → ∀ ch ∈ f.content, ch ≠ ',')) :
    splitCSVLine (renderLine fs) false [] =
      fs.map (fun f => trimChars f.content) := by
  induction fs with
  | nil => exact absurd rfl hne
  | cons f gs ih =>
    cases gs with
    | nil =>
      rw [renderLine]
      rw [splitCSVLine_field_last f (hok f (by simp)).1 (hok f (by simp)).2]
      simp
    | cons g gs' =>
      rw [renderLine]
      rw [splitCSVLine_field_cons f _ (hok f (by simp)).1 (hok f (by simp)).2]
      rw [ih (by simp) (fun x hx => hok x (by simp [hx]))]
      simp

/-- Witness for C2: `"Smith, John",ACME` parses as exactly two fields, the
quoted comma staying inside the first. -/
theorem splitCSVLine_quoted_commas_one_field_witness :
    splitCSVLine (renderLine csvFieldsEx) false [] =
      ["Smith, John".data, "ACME".data] := by
  rw [splitCSVLine_quoted_commas_one_field csvFieldsEx (by decide) (by decide)]
  decide

/-! ## Claim C3: the soldItemsOnly criterion -/

/-- Membership through a conditional filter stage implies membership in the
stage's input. -/
theorem mem_of_mem_priceStage {f : FilterSet} {l : List Article} {a : Article}
    (h : a ∈ priceStage f l) : a ∈ l := by
  rw [priceStage] at h
  split at h
  · exact List.mem_of_mem_filter h
  · exact h

/-- Membership in the Filter Set stage with `soldItemsOnly` on forces at
least one ledger entry for the record's id. -/
theorem sold_of_mem_applyFilters {f : FilterSet} {sh : SalesHistory}
    {l : List Article} {a : Article} (hsold : f.soldItemsOnly = true)
    (h : a ∈ applyFilters f sh l) : 0 < (salesFor sh a.id).length := by
  rw [applyFilters] at h
  have h1 : a ∈ soldStage f sh
      (supplierStage f (sectionStage f (seasonStage f l))) :=
    mem_of_mem_priceStage h
  rw [soldStage, if_pos hsold] at h1
  simpa using (List.mem_filter.mp h1).2

/-- Skipped season stage. -/
theorem seasonStage_off {f : FilterSet} (h : f.seasons = [])
    (l : List Article) : seasonStage f l = l := by
  rw [seasonStage, if_neg (by simp [h])]

/-- Skipped section stage. -/
theorem sectionStage_off {f : FilterSet} (h : f.sections = [])
    (l : List Article) : sectionStage f l = l := by
  rw [sectionStage, if_neg (by simp [h])]

/-- Skipped supplier stage. -/
theorem supplierStage_off {f : FilterSet} (h : f.suppliers = [])
    (l : List Article) : supplierStage f l = l := by
  rw [supplierStage, if_neg (by simp [h])]

/-- Active sold-items stage. -/
theorem soldStage_on {f : FilterSet} (h : f.soldItemsOnly = true)
    (sh : SalesHistory) (l : List Article) :
    soldStage f sh l = l.filter (fun a => decide (0 < (salesFor sh a.id).length)) := by
  rw [soldStage, if_pos h]

/-- Skipped price stage. -/
theorem priceStage_off {f : FilterSet} (hmin : truthyOpt f.minPrice = false)
    (hmax : truthyOpt f.maxPrice = false) (l : List Article) :
    priceStage f l = l := by
  rw [priceStage, if_neg (by simp [hmin, hmax])]

/-- C3: with `soldItemsOnly` on, every record surviving the pipeline has at
least one Sale entry in the ledger, and — when the other criteria are
empty/off, the view is `all`, the query blank and the sort the no-op date
sort — the pipeline keeps exactly the records with at least one entry,
removing all records with zero entries. -/
theorem soldItemsOnly_keeps_exactly_sold (articles : List Article)
    (vm : ViewMode) (favorites recents : List String) (f : FilterSet)
    (sh : SalesHistory) (q : String) (sort : SortOption)
    (hsold : f.soldItemsOnly = true) :
    (∀ a ∈ filterAndSortArticles articles vm favorites recents (some f) sh q sort,
      0 < (salesFor sh a.id).length) ∧
    (f.seasons = [] → f.sections = [] → f.suppliers = [] →
      truthyOpt f.minPrice = false → truthyOpt f.maxPrice = false →
      vm = ViewMode.all → jsTrim q = "" → sort = SortOption.date →
      filterAndSortArticles articles vm favorites recents (some f) sh q sort =
        articles.filter (fun a => decide (0 < (salesFor sh a.id).length))) := by
  constructor
  · intro a ha
    simp only [filterAndSortArticles] at ha
    have ha2 : a ∈ (if jsTrim q ≠ "" then
        (applyFilters f sh (viewModeStage vm favorites recents articles)).filter
          (searchPred (jsLower q))
        else applyFilters f sh (viewModeStage vm favorites recents articles)) := by
      split at ha
      · exact mem_jsSort.mp ha
      · exact ha
    have ha3 : a ∈ applyFilters f sh (viewModeStage vm favorites recents articles) := by
      split at ha2
      · exact List.mem_of_mem_filter ha2
      · exact ha2
    exact sold_of_mem_applyFilters hsold ha3
  · intro hse hsec hsup hmin hmax hvm hq hsort
    subst hvm hsort
    simp only [filterAndSortArticles, viewModeStage]
    rw [applyFilters, seasonStage_off hse, sectionStage_off hsec,
      supplierStage_off hsup, soldStage_on hsold,
      priceStage_off hmin hmax]
    rw [if_pos (by simp)]
    rw [if_neg (by simp [hq])]
    exact jsSort_of_lt_false (fun a b => rfl) _

/-- Witness for C3: with one sold and one unsold article, the pipeline under
`soldItemsOnly` keeps exactly the sold one. -/
theorem soldItemsOnly_keeps_exactly_sold_witness :
    filterAndSortArticles [soldArt, unsoldArt] ViewMode.all [] [] (some soldFS)
      shEx "" SortOption.date = [soldArt] := by
  have h := (soldItemsOnly_keeps_exactly_sold [soldArt, unsoldArt] ViewMode.all
    [] [] soldFS shEx "" SortOption.date rfl).2 rfl rfl rfl rfl rfl rfl rfl rfl
  rw [h]
  decide

/-! ## Claim C7: filter composition monotonicity -/

/-- A stronger predicate filters to a sublist of a weaker one's result. -/
theorem filter_sublist_of_imp {p q : α → Bool}
    (h : ∀ a, p a = true → q a = true) :
    ∀ l : List α, (l.filter p).Sublist (l.filter q) := by
  intro l
  induction l with
  | nil => simp
  | cons a l ih =>
    by_cases hp : p a = true
    · rw [List.filter_cons_of_pos hp, List.filter_cons_of_pos (h a hp)]
      exact ih.cons₂ a
    · rw [List.filter_cons_of_neg (by simpa using hp)]
      by_cases hq2 : q a = true
      · rw [List.filter_cons_of_pos hq2]
        exact ih.cons a
      · rw [List.filter_cons_of_neg (by simpa using hq2)]
        exact ih

/-- The lower-bound check depends only on `minPrice`. -/
theorem minCheck_congr {f1 f2 : FilterSet} (h : f1.minPrice = f2.minPrice)
    (p : ℚ) : minCheck f1 p = minCheck f2 p := by
  rw [minCheck, minCheck, h]

/-- The upper-bound check depends only on `maxPrice`. -/
theorem maxCheck_congr {f1 f2 : FilterSet} (h : f1.maxPrice = f2.maxPrice)
    (p : ℚ) : maxCheck f1 p = maxCheck f2 p := by
  rw [maxCheck, maxCheck, h]

/-- Records passing the extended set's price predicate pass the original's,
provided a minPrice added by the second set does not parse negative (the
first set's absent minPrice is an implicit lower bound of 0). -/
theorem pricePred_imp {f1 f2 : FilterSet}
    (hmin : truthyOpt f1.minPrice = true → f1.minPrice = f2.minPrice)
    (hmax : truthyOpt f1.maxPrice = true → f1.maxPrice = f2.maxPrice)
    (hneg : truthyOpt f1.minPrice = false → truthyOpt f2.minPrice = true →
      ∀ m, parseFloatOpt f2.minPrice = some m → 0 ≤ m)
    (a : Article) (h : pricePred f2 a = true) : pricePred f1 a = true := by
  rw [pricePred] at h ⊢
  cases hp : parseFloat (jsOrD a.basePriceEUR "0").data with
  | none => rw [hp] at h; cases h
  | some p =>
    rw [hp] at h
    simp only [Bool.and_eq_true] at h ⊢
    obtain ⟨hmn, hmx⟩ := h
    constructor
    · by_cases t1 : truthyOpt f1.minPrice = true
      · rw [minCheck_congr (hmin t1)]
        exact hmn
      · have t1f : truthyOpt f1.minPrice = false := by
          simpa using t1
        rw [minCheck, if_neg (by simp [t1f])]
        by_cases t2 : truthyOpt f2.minPrice = true
        · rw [minCheck, if_pos t2] at hmn
          cases hm2 : parseFloatOpt f2.minPrice with
          | none => rw [hm2] at hmn; cases hmn
          | some m =>
            rw [hm2] at hmn
            have hmle : m ≤ p := by simpa using hmn
            have h0m : (0 : ℚ) ≤ m := hneg t1f t2 m hm2
            simp [le_trans h0m hmle]
        · rw [minCheck, if_neg t2] at hmn
          exact hmn
    · by_cases t1 : truthyOpt f1.maxPrice = true
      · rw [maxCheck_congr (hmax t1)]
        exact hmx
      · rw [maxCheck, if_neg t1]

/-- Season-stage monotonicity under criterion extension. -/
theorem seasonStage_mono {f1 f2 : FilterSet}
    (hext : f1.seasons ≠ [] → f1.seasons = f2.seasons)
    {l1 l2 : List Article} (hsub : l1.Sublist l2) :
    (seasonStage f2 l1).Sublist (seasonStage f1 l2) := by
  by_cases h1 : f1.seasons = []
  · rw [seasonStage, seasonStage, if_neg (show ¬ f1.seasons ≠ [] by simp [h1])]
    split
    · exact (List.filter_sublist _).trans hsub
    · exact hsub
  · have he := hext h1
    rw [seasonStage, seasonStage,
      if_pos (show f2.seasons ≠ [] by rw [← he]; exact h1),
      if_pos (show f1.seasons ≠ [] from h1), ← he]
    exact hsub.filter _

/-- Section-stage monotonicity under criterion extension. -/
theorem sectionStage_mono {f1 f2 : FilterSet}
    (hext : f1.sections ≠ [] → f1.sections = f2.sections)
    {l1 l2 : List Article} (hsub : l1.Sublist l2) :
    (sectionStage f2 l1).Sublist (sectionStage f1 l2) := by
  by_cases h1 : f1.sections = []
  · rw [sectionStage, sectionStage, if_neg (show ¬ f1.sections ≠ [] by simp [h1])]
    split
    · exact (List.filter_sublist _).trans hsub
    · exact hsub
  · have he := hext h1
    rw [sectionStage, sectionStage,
      if_pos (show f2.sections ≠ [] by rw [← he]; exact h1),
      if_pos (show f1.sections ≠ [] from h1), ← he]
    exact hsub.filter _

/-- Supplier-stage monotonicity under criterion extension. -/
theorem supplierStage_mono {f1 f2 : FilterSet}
    (hext : f1.suppliers ≠ [] → f1.suppliers = f2.suppliers)
    {l1 l2 : List Article} (hsub : l1.Sublist l2) :
    (supplierStage f2 l1).Sublist (supplierStage f1 l2) := by
  by_cases h1 : f1.suppliers = []
  · rw [supplierStage, supplierStage,
      if_neg (show ¬ f1.suppliers ≠ [] by simp [h1])]
    split
    · exact (List.filter_sublist _).trans hsub
    · exact hsub
  · have he := hext h1
    rw [supplierStage, supplierStage,
      if_pos (show f2.suppliers ≠ [] by rw [← he]; exact h1),
      if_pos (show f1.suppliers ≠ [] from h1), ← he]
    exact hsub.filter _

/-- Sold-stage monotonicity under criterion extension. -/
theorem soldStage_mono {f1 f2 : FilterSet} {sh : SalesHistory}
    (hext : f1.soldItemsOnly = true → f2.soldItemsOnly = true)
    {l1 l2 : List Article} (hsub : l1.Sublist l2) :
    (soldStage f2 sh l1).Sublist (soldStage f1 sh l2) := by
  by_cases h1 : f1.soldItemsOnly = true
  · rw [soldStage, soldStage, if_pos (show f2.soldItemsOnly = true from hext h1),
      if_pos (show f1.soldItemsOnly = true from h1)]
    exact hsub.filter _
  · rw [soldStage, soldStage,
      if_neg (show ¬ f1.soldItemsOnly = true from h1)]
    split
    · exact (List.filter_sublist _).trans hsub
    · exact hsub

/-- Price-stage monotonicity under criterion extension, with the
nonnegative-added-minPrice proviso. -/
theorem priceStage_mono {f1 f2 : FilterSet}
    (hmin : truthyOpt f1.minPrice = true → f1.minPrice = f2.minPrice)
    (hmax : truthyOpt f1.maxPrice = true → f1.maxPrice = f2.maxPrice)
    (hneg : truthyOpt f1.minPrice = false → truthyOpt f2.minPrice = true →
      ∀ m, parseFloatOpt f2.minPrice = some m → 0 ≤ m)
    {l1 l2 : List Article} (hsub : l1.Sublist l2) :
    (priceStage f2 l1).Sublist (priceStage f1 l2) := by
  by_cases e1 : (truthyOpt f1.minPrice || truthyOpt f1.maxPrice) = true
  · have e2 : (truthyOpt f2.minPrice || truthyOpt f2.maxPrice) = true := by
      rcases Bool.or_eq_true_iff.mp e1 with h | h
      · have : truthyOpt f2.minPrice = true := by rw [← hmin h]; exact h
        simp [this]
      · have : truthyOpt f2.maxPrice = true := by rw [← hmax h]; exact h
        simp [this]
    rw [priceStage, priceStage,
      if_pos (show (truthyOpt f2.minPrice || truthyOpt f2.maxPrice) = true from e2),
      if_pos (show (truthyOpt f1.minPrice || truthyOpt f1.maxPrice) = true from e1)]
    exact (filter_sublist_of_imp (pricePred_imp hmin hmax hneg) l1).trans
      (hsub.filter _)
  · rw [priceStage, priceStage,
      if_neg (show ¬ (truthyOpt f1.minPrice || truthyOpt f1.maxPrice) = true from e1)]
    split
    · exact (List.filter_sublist _).trans hsub
    · exact hsub

/-- Filter Set application is antitone in criterion extension. -/
theorem applyFilters_mono {f1 f2 : FilterSet} {sh : SalesHistory}
    (hext : FilterExtends f1 f2)
    (hneg : truthyOpt f1.minPrice = false → truthyOpt f2.minPrice = true →
      ∀ m, parseFloatOpt f2.minPrice = some m → 0 ≤ m)
    (l : List Article) :
    (applyFilters f2 sh l).Sublist (applyFilters f1 sh l) := by
  obtain ⟨h1, h2, h3, h4, h5, h6⟩ := hext
  exact priceStage_mono h5 h6 hneg
    (soldStage_mono h4
      (supplierStage_mono h3
        (sectionStage_mono h2
          (seasonStage_mono h1 (List.Sublist.refl l)))))

/-- C7 (amended): if the second Filter Set enables a superset of the first's
non-empty criteria with the same values, and any minPrice enabled only in
the second set does not parse to a negative number, then the pipeline's
result under the second set is never larger than under the first. -/
theorem additional_filter_never_increases (articles : List Article)
    (vm : ViewMode) (favorites recents : List String) (sh : SalesHistory)
    (q : String) (sort : SortOption) (f1 f2 : FilterSet)
    (hext : FilterExtends f1 f2)
    (hneg : truthyOpt f1.minPrice = false → truthyOpt f2.minPrice = true →
      ∀ m, parseFloatOpt f2.minPrice = some m → 0 ≤ m) :
    (filterAndSortArticles articles vm favorites recents (some f2) sh q sort).length ≤
    (filterAndSortArticles articles vm favorites recents (some f1) sh q sort).length := by
  simp only [filterAndSortArticles]
  have key : ∀ Y2 Y1 : List Article, Y2.Sublist Y1 →
      (if vm ≠ ViewMode.recent then jsSort (sortLt sort) Y2 else Y2).length ≤
      (if vm ≠ ViewMode.recent then jsSort (sortLt sort) Y1 else Y1).length := by
    intro Y2 Y1 h
    by_cases hvm : vm ≠ ViewMode.recent
    · rw [if_pos hvm, if_pos hvm, length_jsSort, length_jsSort]
      exact h.length_le
    · rw [if_neg hvm, if_neg hvm]
      exact h.length_le
  apply key
  by_cases hq : jsTrim q ≠ ""
  · rw [if_pos hq, if_pos hq]
    exact (applyFilters_mono hext hneg _).filter _
  · rw [if_neg hq, if_neg hq]
    exact applyFilters_mono hext hneg _

/-- Witness for C7 (amended): adding a nonnegative minPrice to a
maxPrice-only Filter Set does not grow the result. -/
theorem additional_filter_never_increases_witness :
    (filterAndSortArticles [artNeg] ViewMode.all [] [] (some fMinOk) []
      "" SortOption.date).length ≤
    (filterAndSortArticles [artNeg] ViewMode.all [] [] (some fMax) []
      "" SortOption.date).length := by
  refine additional_filter_never_increases [artNeg] ViewMode.all [] [] [] ""
    SortOption.date fMax fMinOk (by decide) ?_
  intro _ _ m hm
  rw [show parseFloatOpt fMinOk.minPrice = some (5 : ℚ) by
    simp [fMinOk, parseFloatOpt, parseFloat_five]] at hm
  rw [Option.some.injEq] at hm
  subst hm
  norm_num

/-- Counterexample for C7 as stated: `fMaxMin` enables a superset of `fMax`'s
criteria (it adds `minPrice = "-5"` to the same `maxPrice = "10"`), yet on a
record with base price `-3` the pipeline returns more results under the
larger criterion set: the absent minPrice of `fMax` is an implicit lower
bound of 0, which the added negative bound relaxes. -/
theorem additional_minPrice_increases_results :
    FilterExtends fMax fMaxMin ∧
    (filterAndSortArticles [artNeg] ViewMode.all [] [] (some fMax) []
      "" SortOption.date).length <
    (filterAndSortArticles [artNeg] ViewMode.all [] [] (some fMaxMin) []
      "" SortOption.date).length := by
  have hdata : (jsOrD artNeg.basePriceEUR "0").data = ['-', '3'] := rfl
  have hpred1 : pricePred fMax artNeg = false := by
    rw [pricePred, hdata, parseFloat_neg3]
    show (minCheck fMax (-3 : ℚ) && maxCheck fMax (-3)) = false
    rw [minCheck, if_neg (show ¬ truthyOpt fMax.minPrice = true by decide)]
    have : ¬ ((0 : ℚ) ≤ -3) := by norm_num
    simp [this]
  have hmin5 : parseFloatOpt fMaxMin.minPrice = some (-5 : ℚ) := by
    simp [fMaxMin, parseFloatOpt, parseFloat_neg5]
  have hmax10 : parseFloatOpt fMaxMin.maxPrice = some (10 : ℚ) := by
    simp [fMaxMin, parseFloatOpt, parseFloat_ten]
  have hpred2 : pricePred fMaxMin artNeg = true := by
    rw [pricePred, hdata, parseFloat_neg3]
    show (minCheck fMaxMin (-3 : ℚ) && maxCheck fMaxMin (-3)) = true
    rw [minCheck, maxCheck,
      if_pos (show truthyOpt fMaxMin.minPrice = true from rfl),
      if_pos (show truthyOpt fMaxMin.maxPrice = true from rfl), hmin5, hmax10]
    show (decide ((-5 : ℚ) ≤ -3) && decide ((-3 : ℚ) ≤ 10)) = true
    norm_num
  have stages : ∀ f : FilterSet, f.seasons = [] → f.sections = [] →
      f.suppliers = [] → f.soldItemsOnly = false →
      (truthyOpt f.minPrice || truthyOpt f.maxPrice) = true →
      filterAndSortArticles [artNeg] ViewMode.all [] [] (some f) []
        "" SortOption.date = List.filter (pricePred f) [artNeg] := by
    intro f h1 h2 h3 h4 h5
    simp only [filterAndSortArticles, viewModeStage]
    rw [applyFilters, seasonStage_off h1, sectionStage_off h2,
      supplierStage_off h3, soldStage,
      if_neg (show ¬ f.soldItemsOnly = true by simp [h4]),
      priceStage, if_pos h5]
    rw [if_pos (show ViewMode.all ≠ ViewMode.recent by decide)]
    rw [if_neg (show ¬ jsTrim "" ≠ "" by simp [show jsTrim "" = "" from rfl])]
    exact jsSort_of_lt_false (fun a b => rfl) _
  refine ⟨by decide, ?_⟩
  rw [stages fMax rfl rfl rfl rfl (by decide),
    stages fMaxMin rfl rfl rfl rfl (by decide)]
  rw [List.filter_cons_of_neg (by simp [hpred1]),
    List.filter_cons_of_pos hpred2]
  simp
